import Mathlib

/-!
Shallow embedding of the `translate` crate (src/translator.rs,
src/message_translator.rs, src/error.rs, src/lib.rs).

Modelling conventions:
* The `fluent_bundle` / `unic_langid` crates are external collaborators that the
  spec treats as opaque capabilities.  They are modelled by a `FluentModel`
  record of functions (resource parsing, language-identifier parsing, pattern
  formatting) over which all theorems quantify; `Bundle` message storage and
  `add_resource` follow fluent's documented behaviour (a duplicate message id
  is rejected, other messages of the same resource are still added, and the
  call reports failure).
* The filesystem is modelled as an explicit tree (`RootDir`, `DirEntryNode`,
  `FileNode`) in which every fallible operation of the Rust code
  (`fs::read_dir`, iterator items, `DirEntry::file_type`, `fs::read_to_string`)
  carries its possible failure as an `Except`/`Option` value.
* Rust's `HashMap<String, Bundle>` is modelled as an association list with
  overwriting insertion; only `insert`, `get` and `contains_key` are used by
  the source.
* `Option` is used as the ambient monad of `Translator.get_message` so that the
  two `.unwrap()` calls of the source are modelled honestly: a `none` result of
  `get_message` models a panic.
* Logging (`tracing`) is ignored: it is an output side channel with no effect
  on any returned value.
-/

/-- A piece of a fluent pattern: literal text or a named placeholder.
Models the opaque pattern representation of `fluent_bundle`. -/
inductive PatElem
  | text (s : String)
  | arg (name : String)
deriving DecidableEq, Repr

/-- Models `fluent_bundle::FluentMessage`: a message id together with an
optional formattable value (`FluentMessage::value`). -/
structure FluentMessage where
  id : String
  value? : Option (List PatElem)
deriving DecidableEq, Repr

/-- Models `fluent_bundle::FluentResource`: the parsed messages of one file. -/
structure FluentResource where
  messages : List FluentMessage
deriving DecidableEq, Repr

/-- Models `FluentArgs`: named arguments, keys unique, last write wins.
Argument values are modelled as strings (the claims depend only on names). -/
def FluentArgs := List (String × String)
deriving DecidableEq, Repr

/-- `FluentArgs::set`: store or overwrite the named value. -/
def FluentArgs.set (args : FluentArgs) (key value : String) : FluentArgs :=
  (List.filter (fun p => !(p.1 == key)) args) ++ [(key, value)]

/-- Models `type Bundle = FluentBundle<FluentResource, IntlLangMemoizer>`:
the per-language store of compiled messages plus its locale list. -/
structure Bundle where
  locales : List String
  messages : List FluentMessage
deriving DecidableEq, Repr

/-- `Bundle::new_concurrent(languages)`: an empty bundle for the locales. -/
def Bundle.new_concurrent (locales : List String) : Bundle :=
  { locales := locales, messages := [] }

/-- `bundle.get_message(id)`: find a message by id. -/
def Bundle.get_message (b : Bundle) (id : String) : Option FluentMessage :=
  b.messages.find? (fun m => m.id == id)

/-- `bundle.add_resource(resource)`: add each message of the resource whose id
is not already present; the second component is `true` iff no message was
rejected (fluent returns `Err` when at least one id collides, while still
keeping the non-colliding messages). -/
def Bundle.add_resource (b : Bundle) (r : FluentResource) : Bundle × Bool :=
  r.messages.foldl
    (fun acc m =>
      if acc.1.messages.any (fun q => q.id == m.id) then (acc.1, false)
      else ({ acc.1 with messages := acc.1.messages ++ [m] }, acc.2))
    (b, true)

/-- The opaque external capabilities consumed by the translator:
`unic_langid` identifier parsing, `FluentResource::try_new`, and
`bundle.format_pattern`.  `formatPattern` returns the formatted text together
with the list of non-fatal formatting errors. -/
structure FluentModel where
  parseLang : String → Bool
  parseResource : String → Except Unit FluentResource
  formatPattern : Bundle → List PatElem → Option FluentArgs → String × List String

deriving instance DecidableEq for Except

/-- One file inside a language directory: its name and the result of
`fs::read_to_string` (`Except.error` = read failure detail). -/
structure FileNode where
  name : String
  content : Except String String
deriving DecidableEq, Repr

/-- One entry of the root directory: its name, the result of
`DirEntry::file_type().is_dir()` (`Except.error` = metadata failure), and the
result of `fs::read_dir` on the entry's path.  An `Option FileNode` item that
is `none` models an `Err` item of the inner directory iterator. -/
structure DirEntryNode where
  name : String
  fileType : Except String Bool
  listing : Except String (List (Option FileNode))
deriving DecidableEq, Repr

/-- The root directory handed to `Translator::new`: the result of
`fs::read_dir(directory_path)`; a `none` item models an `Err` item of the
directory iterator. -/
structure RootDir where
  listing : Except String (List (Option DirEntryNode))
deriving DecidableEq, Repr

/-- `TranslatorError` of src/error.rs (the `NoDefaultLanuage` spelling is the
source's). -/
inductive TranslatorError
  | ReadDirError (directory_path : String) (detail : String)
  | BundleResourceError
  | DirEntryError (detail : String)
  | NoDefaultLanuage
deriving DecidableEq, Repr

/-- `TRANSLATION_FAILED` of src/message_translator.rs. -/
def TRANSLATION_FAILED : String :=
  "An error has ocurred while trying to translate the message"

/-- Association-list model of `HashMap::insert` (overwrites the key). -/
def mapInsert (m : List (String × Bundle)) (k : String) (v : Bundle) :
    List (String × Bundle) :=
  (List.filter (fun p => !(p.1 == k)) m) ++ [(k, v)]

/-- Association-list model of `HashMap::get`. -/
def mapGet (m : List (String × Bundle)) (k : String) : Option Bundle :=
  (m.find? (fun p => p.1 == k)).map Prod.snd

/-- Association-list model of `HashMap::contains_key`. -/
def mapContains (m : List (String × Bundle)) (k : String) : Bool :=
  m.any (fun p => p.1 == k)

/-- The `Translator` struct: the language map and the default language string
(`default_language.as_str()`).  The phantom type parameters of the source are
erased; `Language`/`TranslationKey` values appear as their `as_str()` images. -/
structure Translator where
  translations : List (String × Bundle)
  default_language : String
deriving DecidableEq, Repr

/-- `is_directory(&entry)` of src/translator.rs: `file_type()` failure becomes
`TranslatorError::DirEntryError`. -/
def is_directory (directory : DirEntryNode) : Except TranslatorError Bool :=
  match directory.fileType with
  | .ok b => .ok b
  | .error detail => .error (.DirEntryError detail)

/-- `get_directory_data(entry_result)`: skip `Err` iterator items, skip entries
whose `is_directory` fails (the `DirEntryError` is discarded), keep only
directories.  The name is part of the node, so the node itself is returned. -/
def get_directory_data (directory_entry_result : Option DirEntryNode) :
    Option DirEntryNode :=
  match directory_entry_result with
  | none => none
  | some directory =>
    match is_directory directory with
    | .error _ => none
    | .ok true => some directory
    | .ok false => none

/-- `get_file_data(file_entry_result)`: skip `Err` iterator items and files
whose `read_to_string` fails; otherwise return `(content, file_name)`. -/
def get_file_data (file_entry_result : Option FileNode) :
    Option (String × String) :=
  match file_entry_result with
  | none => none
  | some file =>
    match file.content with
    | .ok file_content => some (file_content, file.name)
    | .error _ => none

/-- The inner loop of `Translator::new` over one language directory's files:
read each file, parse it with `FluentResource::try_new` (`M.parseResource`),
add it to the bundle; every per-file failure only skips the file. -/
def loadFiles (M : FluentModel) (bundle : Bundle)
    (files : List (Option FileNode)) : Bundle :=
  files.foldl
    (fun b file_entry_result =>
      match get_file_data file_entry_result with
      | none => b
      | some (content, _file_name) =>
        match M.parseResource content with
        | .ok resource => (Bundle.add_resource b resource).1
        | .error _ => b)
    bundle

/-- One iteration of the outer loop of `Translator::new`: skip non-directories
and invalid language identifiers, create the bundle, list the language
directory (failure is fatal, carrying the sub-path), load its files, insert
the bundle under the directory name. -/
def processEntry (M : FluentModel) (directory_path : String)
    (translations : List (String × Bundle)) (e : Option DirEntryNode) :
    Except TranslatorError (List (String × Bundle)) :=
  match get_directory_data e with
  | none => .ok translations
  | some directory =>
    let directory_name := directory.name
    if M.parseLang directory_name then
      let bundle := Bundle.new_concurrent [directory_name]
      match directory.listing with
      | .error detail =>
        .error (.ReadDirError (directory_path ++ "/" ++ directory_name) detail)
      | .ok files =>
        .ok (mapInsert translations directory_name (loadFiles M bundle files))
    else
      .ok translations

/-- The outer loop of `Translator::new` over the root directory's entries. -/
def processEntries (M : FluentModel) (directory_path : String) :
    List (Option DirEntryNode) → List (String × Bundle) →
    Except TranslatorError (List (String × Bundle))
  | [], translations => .ok translations
  | e :: es, translations =>
    match processEntry M directory_path translations e with
    | .error err => .error err
    | .ok translations => processEntries M directory_path es translations

/-- `Translator::new(directory_path, default_language)`: list the root
(failure is fatal), walk the entries, then check the default language once at
the end. -/
def Translator.new (M : FluentModel) (directory_path : String) (root : RootDir)
    (default_language : String) : Except TranslatorError Translator :=
  match root.listing with
  | .error detail => .error (.ReadDirError directory_path detail)
  | .ok entries =>
    match processEntries M directory_path entries [] with
    | .error err => .error err
    | .ok translations =>
      if mapContains translations default_language then
        .ok { translations := translations, default_language := default_language }
      else
        .error .NoDefaultLanuage

/-- `Translator::get_message(language, key)`: language fallback, then key
fallback.  The ambient `Option` monad models the two `.unwrap()` calls on
`translations.get(default_language)`: a `none` result models a panic. -/
def Translator.get_message (t : Translator) (language key : String) :
    Option (Option FluentMessage × Bundle) :=
  let translation_key := key
  let default_language := t.default_language
  let translation_info_optional :=
    match mapGet t.translations language with
    | some translation_info => some (translation_info, language)
    | none =>
      match mapGet t.translations default_language with
      | none => none
      | some b => some (b, default_language)
  match translation_info_optional with
  | none => none
  | some (translations, lang) =>
    let message := Bundle.get_message translations translation_key
    if message.isNone && (lang != default_language) then
      match mapGet t.translations default_language with
      | none => none
      | some b => some (Bundle.get_message b translation_key, translations)
    else
      some (message, translations)

/-- `Translator::translate_without_arguments(language, key)`: resolve, then
format with no arguments; every degraded case returns `TRANSLATION_FAILED`.
A `none` result models a panic propagated from `get_message`. -/
def Translator.translate_without_arguments (M : FluentModel) (t : Translator)
    (language key : String) : Option String :=
  match t.get_message language key with
  | none => none
  | some (message?, bundle) =>
    match message? with
    | none => some TRANSLATION_FAILED
    | some message =>
      match message.value? with
      | none => some TRANSLATION_FAILED
      | some message_value =>
        let fm := M.formatPattern bundle message_value none
        if fm.2.isEmpty then some fm.1 else some TRANSLATION_FAILED

/-- The `MessageTranslator` builder of src/message_translator.rs. -/
structure MessageTranslator where
  key : String
  bundle : Bundle
  message : Option FluentMessage
  args : Option FluentArgs

/-- `MessageTranslator::add_argument(key, value)`. -/
def MessageTranslator.add_argument (self : MessageTranslator)
    (key value : String) : MessageTranslator :=
  { self with args := some ((self.args.getD []).set key value) }

/-- `MessageTranslator::build(&self)`: same failure policy as
`translate_without_arguments`, but passing the accumulated arguments. -/
def MessageTranslator.build (M : FluentModel) (self : MessageTranslator) :
    String :=
  match self.message with
  | none => TRANSLATION_FAILED
  | some message =>
    match message.value? with
    | none => TRANSLATION_FAILED
    | some message_value =>
      let fm := M.formatPattern self.bundle message_value self.args
      if fm.2.isEmpty then fm.1 else TRANSLATION_FAILED

/-- `Translator::translate(language, key)`: build a `MessageTranslator` with
empty arguments (a `none` result models a panic from `get_message`). -/
def Translator.translate (t : Translator) (language key : String) :
    Option MessageTranslator :=
  match t.get_message language key with
  | none => none
  | some (message, bundle) =>
    some { key := key, bundle := bundle, message := message, args := none }

/-- The language-fallback selection of `get_message` (src/translator.rs lines
169-182): the requested language's bundle when present, otherwise the default
language's bundle (`none` when even that is absent, i.e. the panic case). -/
def selectedBundle (t : Translator) (language : String) : Option Bundle :=
  match mapGet t.translations language with
  | some b => some b
  | none => mapGet t.translations t.default_language

/-- The text that the resolution outcome `(msg?, b)` of `get_message` leads
to in `translate_without_arguments`: the formatted pattern on clean success,
`TRANSLATION_FAILED` in every degraded case (no message, no value, or at
least one formatting error). -/
def resolveText (M : FluentModel) (msg? : Option FluentMessage) (b : Bundle) :
    String :=
  match msg? with
  | none => TRANSLATION_FAILED
  | some message =>
    match message.value? with
    | none => TRANSLATION_FAILED
    | some v =>
      if (M.formatPattern b v none).2.isEmpty
      then (M.formatPattern b v none).1 else TRANSLATION_FAILED

/-- A root-directory entry in which both directory listings succeed: a
language directory with its (arbitrarily fallible) files, a non-directory
entry, an entry whose `file_type()` fails, or an `Err` iterator item. -/
inductive PEntry
  | dir (name : String) (files : List (Option FileNode))
  | nondir (name : String)
  | unknownType (name : String) (detail : String)
  | errEntry
deriving DecidableEq, Repr

/-- Embed a `PEntry` as the corresponding root-directory iterator item. -/
def PEntry.toEntry : PEntry → Option DirEntryNode
  | .dir n fs => some { name := n, fileType := .ok true, listing := .ok fs }
  | .nondir n => some { name := n, fileType := .ok false, listing := .ok [] }
  | .unknownType n d => some { name := n, fileType := .error d, listing := .ok [] }
  | .errEntry => none

/-- A directory tree in which the root listing and every language-directory
listing succeed (per-file failures may still occur inside `PEntry.dir`). -/
def plainRoot (es : List PEntry) : RootDir :=
  { listing := .ok (es.map PEntry.toEntry) }

/-- The effect of one outer-loop iteration of `Translator.new` on the map,
for an entry of a plain tree (no listing failure is possible, so no error). -/
def pStep (M : FluentModel) (translations : List (String × Bundle)) :
    PEntry → List (String × Bundle)
  | .dir n fs =>
    if M.parseLang n then
      mapInsert translations n (loadFiles M (Bundle.new_concurrent [n]) fs)
    else translations
  | _ => translations

/-- The name of a `PEntry` when it is a directory entry. -/
def PEntry.dirName : PEntry → Option String
  | .dir n _ => some n
  | _ => none

/-- The top-level directory names of a plain tree that parse as valid
language identifiers. -/
def validDirNames (M : FluentModel) (es : List PEntry) : List String :=
  es.filterMap fun e =>
    match e with
    | .dir n _ => if M.parseLang n then some n else none
    | _ => none

/-- One call of `MessageTranslator::build(&self)`: the receiver is taken by
shared reference, so the call returns the text and leaves the builder value
unchanged. -/
def buildCall (M : FluentModel) (self : MessageTranslator) :
    MessageTranslator × String :=
  (self, self.build M)

/-- A trace of `n` successive `build()` calls on a builder, threading the
builder state from call to call and collecting the returned texts. -/
def buildTrace (M : FluentModel) :
    MessageTranslator → Nat → MessageTranslator × List String
  | b, 0 => (b, [])
  | b, n + 1 =>
    let c := buildCall M b
    let rest := buildTrace M c.1 n
    (rest.1, c.2 :: rest.2)

/-- A concrete resource used by the witnesses. -/
def sampleResource : FluentResource :=
  { messages := [{ id := "hello", value? := some [PatElem.text "Hello"] }] }

/-- A concrete instantiation of the opaque capabilities, used by the
witnesses: two valid language identifiers, a parser that rejects the text
"BAD" and otherwise yields `sampleResource`, and a formatter that
concatenates text pieces and reports an error for each unknown argument. -/
def sampleModel : FluentModel where
  parseLang := fun s => s == "en" || s == "fr"
  parseResource := fun s => if s == "BAD" then .error () else .ok sampleResource
  formatPattern := fun _ p args =>
    p.foldl
      (fun acc e =>
        match e with
        | .text s => (acc.1 ++ s, acc.2)
        | .arg n =>
          match (args.getD []).find? (fun q => q.1 == n) with
          | some q => (acc.1 ++ q.2, acc.2)
          | none => (acc.1, acc.2 ++ ["Unknown argument " ++ n]))
      ("", [])

/-- The bundle obtained by loading `sampleResource` into an empty "en"
bundle; used by the witnesses. -/
def sampleBundle : Bundle :=
  (Bundle.add_resource (Bundle.new_concurrent ["en"]) sampleResource).1

/-- A concrete translator with languages "en" (default) and "fr", where only
"en" holds the message "hello"; used by the witnesses. -/
def sampleTranslator : Translator :=
  { translations := [("en", sampleBundle), ("fr", Bundle.new_concurrent ["fr"])],
    default_language := "en" }

/-! ### Helper lemmas about the association-list map and the directory walk -/

theorem mapContains_true_iff (m : List (String × Bundle)) (k : String) :
    mapContains m k = true ↔ ∃ p ∈ m, p.1 = k := by
  simp [mapContains, List.any_eq_true, beq_iff_eq]

theorem mapGet_of_contains (m : List (String × Bundle)) (k : String)
    (h : mapContains m k = true) : ∃ b, mapGet m k = some b := by
  have h2 : (m.find? fun p => p.1 == k).isSome := by
    rw [List.find?_isSome]
    rcases (mapContains_true_iff m k).1 h with ⟨p, hp, hpk⟩
    exact ⟨p, hp, by simpa [beq_iff_eq] using hpk⟩
  rcases Option.isSome_iff_exists.1 h2 with ⟨p, hp⟩
  exact ⟨p.2, by simp [mapGet, hp]⟩

theorem mapContains_insert_iff (m : List (String × Bundle)) (k : String)
    (v : Bundle) (s : String) :
    mapContains (mapInsert m k v) s = true ↔ (s = k ∨ mapContains m s = true) := by
  rw [mapContains_true_iff]
  constructor
  · rintro ⟨p, hp, hps⟩
    rcases List.mem_append.1 hp with hin | hone
    · exact Or.inr ((mapContains_true_iff m s).2 ⟨p, (List.mem_filter.1 hin).1, hps⟩)
    · have hpk : p = (k, v) := by simpa using hone
      subst hpk
      exact Or.inl hps.symm
  · rintro (hsk | h)
    · exact ⟨(k, v), List.mem_append.2 (Or.inr (by simp)), hsk.symm⟩
    · rcases (mapContains_true_iff m s).1 h with ⟨p, hp, hps⟩
      by_cases hsk : s = k
      · exact ⟨(k, v), List.mem_append.2 (Or.inr (by simp)), hsk.symm⟩
      · refine ⟨p, List.mem_append.2 (Or.inl (List.mem_filter.2 ⟨hp, ?_⟩)), hps⟩
        simp [hps, beq_iff_eq, hsk]

theorem plain_walk (M : FluentModel) (dp : String) (es : List PEntry)
    (acc : List (String × Bundle)) :
    processEntries M dp (es.map PEntry.toEntry) acc =
      .ok (es.foldl (pStep M) acc) := by
  induction es generalizing acc with
  | nil => rfl
  | cons e tl ih =>
    cases e with
    | dir n fs =>
      by_cases h : M.parseLang n
      · simpa [processEntries, processEntry, PEntry.toEntry, get_directory_data,
          is_directory, h, pStep] using ih _
      · simpa [processEntries, processEntry, PEntry.toEntry, get_directory_data,
          is_directory, h, pStep] using ih _
    | nondir n =>
      simpa [processEntries, processEntry, PEntry.toEntry, get_directory_data,
        is_directory, pStep] using ih _
    | unknownType n d =>
      simpa [processEntries, processEntry, PEntry.toEntry, get_directory_data,
        is_directory, pStep] using ih _
    | errEntry =>
      simpa [processEntries, processEntry, PEntry.toEntry, get_directory_data,
        is_directory, pStep] using ih _

theorem validDirNames_cons_dir (M : FluentModel) (n : String)
    (fs : List (Option FileNode)) (tl : List PEntry) :
    validDirNames M (.dir n fs :: tl) =
      if M.parseLang n then n :: validDirNames M tl else validDirNames M tl := by
  by_cases h : M.parseLang n <;> simp [validDirNames, List.filterMap_cons, h]

theorem validDirNames_cons_nondir (M : FluentModel) (n : String)
    (tl : List PEntry) :
    validDirNames M (.nondir n :: tl) = validDirNames M tl := by
  simp [validDirNames, List.filterMap_cons]

theorem validDirNames_cons_unknownType (M : FluentModel) (n d : String)
    (tl : List PEntry) :
    validDirNames M (.unknownType n d :: tl) = validDirNames M tl := by
  simp [validDirNames, List.filterMap_cons]

theorem validDirNames_cons_errEntry (M : FluentModel) (tl : List PEntry) :
    validDirNames M (.errEntry :: tl) = validDirNames M tl := by
  simp [validDirNames, List.filterMap_cons]

theorem contains_walk (M : FluentModel) (es : List PEntry)
    (acc : List (String × Bundle)) (s : String) :
    mapContains (es.foldl (pStep M) acc) s = true ↔
      (s ∈ validDirNames M es ∨ mapContains acc s = true) := by
  induction es generalizing acc with
  | nil => simp [validDirNames]
  | cons e tl ih =>
    cases e with
    | dir n fs =>
      rw [List.foldl_cons, validDirNames_cons_dir]
      by_cases h : M.parseLang n
      · simp only [pStep, h, if_true, List.mem_cons]
        rw [ih, mapContains_insert_iff]
        tauto
      · have hp : pStep M acc (PEntry.dir n fs) = acc := by simp [pStep, h]
        rw [hp, ih, if_neg h]
    | nondir n =>
      rw [List.foldl_cons, validDirNames_cons_nondir]
      simp only [pStep]
      rw [ih]
    | unknownType n d =>
      rw [List.foldl_cons, validDirNames_cons_unknownType]
      simp only [pStep]
      rw [ih]
    | errEntry =>
      rw [List.foldl_cons, validDirNames_cons_errEntry]
      simp only [pStep]
      rw [ih]

theorem processEntries_error_shape (M : FluentModel) (dp : String)
    (es : List (Option DirEntryNode)) (acc : List (String × Bundle))
    (err : TranslatorError)
    (h : processEntries M dp es acc = .error err) :
    ∃ p d, err = TranslatorError.ReadDirError p d := by
  induction es generalizing acc with
  | nil => simp [processEntries] at h
  | cons e tl ih =>
    rw [processEntries] at h
    cases hpe : processEntry M dp acc e with
    | error e2 =>
      rw [hpe] at h
      have he2 : ∃ p d, e2 = TranslatorError.ReadDirError p d := by
        unfold processEntry at hpe
        cases hgd : get_directory_data e with
        | none => rw [hgd] at hpe; simp at hpe
        | some d =>
          rw [hgd] at hpe
          by_cases hpl : M.parseLang d.name
          · simp only [hpl, if_true] at hpe
            cases hls : d.listing with
            | error detail =>
              rw [hls] at hpe
              simp at hpe
              exact ⟨dp ++ "/" ++ d.name, detail, hpe.symm⟩
            | ok files => rw [hls] at hpe; simp at hpe
          · simp [hpl] at hpe
      rcases he2 with ⟨p, d2, rfl⟩
      simp at h
      exact ⟨p, d2, h.symm⟩
    | ok acc2 =>
      rw [hpe] at h
      exact ih acc2 h

theorem get_message_eq (t : Translator) (language key : String) (bl bd : Bundle)
    (hl : mapGet t.translations language = some bl)
    (hd : mapGet t.translations t.default_language = some bd) :
    t.get_message language key =
      some ((if (Bundle.get_message bl key).isNone && (language != t.default_language)
             then Bundle.get_message bd key
             else Bundle.get_message bl key), bl) := by
  simp only [Translator.get_message, hl, hd]
  by_cases h : (Bundle.get_message bl key).isNone && (language != t.default_language)
  · rw [if_pos h, if_pos h]
  · rw [if_neg h, if_neg h]

theorem get_message_unknown (t : Translator) (language key : String) (bd : Bundle)
    (hl : mapGet t.translations language = none)
    (hd : mapGet t.translations t.default_language = some bd) :
    t.get_message language key = some (Bundle.get_message bd key, bd) := by
  simp only [Translator.get_message, hl, hd]
  simp

theorem get_message_isSome (t : Translator) (language key : String)
    (hinv : mapContains t.translations t.default_language = true) :
    ∃ mb, t.get_message language key = some mb := by
  obtain ⟨bd, hd⟩ := mapGet_of_contains _ _ hinv
  cases hl : mapGet t.translations language with
  | some bl => exact ⟨_, get_message_eq t language key bl bd hl hd⟩
  | none => exact ⟨_, get_message_unknown t language key bd hl hd⟩

theorem new_ok_inv (M : FluentModel) (dp : String) (root : RootDir)
    (dl : String) (t : Translator)
    (h : Translator.new M dp root dl = .ok t) :
    t.default_language = dl ∧
      mapContains t.translations t.default_language = true := by
  unfold Translator.new at h
  cases hr : root.listing with
  | error detail => rw [hr] at h; simp at h
  | ok entries =>
    rw [hr] at h
    have h2 : (match processEntries M dp entries [] with
        | Except.error err => Except.error err
        | Except.ok translations =>
          if mapContains translations dl = true then
            Except.ok { translations := translations, default_language := dl }
          else Except.error TranslatorError.NoDefaultLanuage) = Except.ok t := h
    cases hpe : processEntries M dp entries [] with
    | error err => rw [hpe] at h2; simp at h2
    | ok translations =>
      rw [hpe] at h2
      have h3 : (if mapContains translations dl = true then
            Except.ok { translations := translations, default_language := dl }
          else Except.error TranslatorError.NoDefaultLanuage) = Except.ok t := h2
      by_cases hc : mapContains translations dl = true
      · rw [if_pos hc] at h3
        have ht : t = { translations := translations, default_language := dl } := by
          cases h3; rfl
        subst ht
        exact ⟨rfl, hc⟩
      · rw [if_neg hc] at h3
        simp at h3

theorem new_plain (M : FluentModel) (dp : String) (es : List PEntry)
    (dl : String) :
    Translator.new M dp (plainRoot es) dl =
      if mapContains (es.foldl (pStep M) []) dl then
        .ok { translations := es.foldl (pStep M) [], default_language := dl }
      else .error .NoDefaultLanuage := by
  simp only [Translator.new, plainRoot]
  rw [plain_walk M dp es []]

theorem processEntries_append (M : FluentModel) (dp : String)
    (es1 es2 : List (Option DirEntryNode)) (acc : List (String × Bundle)) :
    processEntries M dp (es1 ++ es2) acc =
      match processEntries M dp es1 acc with
      | .error e => .error e
      | .ok acc2 => processEntries M dp es2 acc2 := by
  induction es1 generalizing acc with
  | nil => simp [processEntries]
  | cons e tl ih =>
    rw [List.cons_append, processEntries, processEntries]
    cases hpe : processEntry M dp acc e with
    | error err => rfl
    | ok acc2 => exact ih acc2

theorem dirName_of_validDirNames (M : FluentModel) (es : List PEntry)
    (s : String) (h : s ∈ validDirNames M es) :
    ∃ e ∈ es, PEntry.dirName e = some s := by
  unfold validDirNames at h
  rcases List.mem_filterMap.1 h with ⟨e, he, hf⟩
  refine ⟨e, he, ?_⟩
  cases e with
  | dir n fs =>
    by_cases hp : M.parseLang n
    · simp only [hp, if_true] at hf
      cases hf
      rfl
    · simp [hp] at hf
  | nondir n => simp at hf
  | unknownType n d => simp at hf
  | errEntry => simp at hf

/-! ### Claim theorems -/

/-- C1: for every requested language and key, `get_message` returns as its
second component the bundle selected by language fallback (the requested
language's store if present, otherwise the default language's store), never
the store the key fallback found the message in: even when the resolved
message comes from the default language's store, the bundle returned for
formatting is the originally selected one. -/
theorem formatting_bundle_is_language_fallback (t : Translator)
    (language key : String)
    (hinv : mapContains t.translations t.default_language = true) :
    ∃ b m, selectedBundle t language = some b ∧
      t.get_message language key = some (m, b) := by
  obtain ⟨bd, hd⟩ := mapGet_of_contains _ _ hinv
  cases hl : mapGet t.translations language with
  | some bl =>
    refine ⟨bl, _, ?_, get_message_eq t language key bl bd hl hd⟩
    simp [selectedBundle, hl]
  | none =>
    refine ⟨bd, _, ?_, get_message_unknown t language key bd hl hd⟩
    simp [selectedBundle, hl, hd]

/-- Witness for C1: in `sampleTranslator`, requesting "fr" (whose store is
empty) with key "hello" resolves the message from the default store while
returning the "fr" bundle. -/
theorem formatting_bundle_is_language_fallback_witness :
    ∃ b m, selectedBundle sampleTranslator "fr" = some b ∧
      sampleTranslator.get_message "fr" "hello" = some (m, b) :=
  formatting_bundle_is_language_fallback sampleTranslator "fr" "hello" rfl

/-- C2: for a requested language present in the map, `get_message` looks the
key up in that language's store; if absent and the language differs from the
default language, it looks it up in the default store and returns that
message; if absent in both, the resolved message is `none`.  In particular a
key absent in the requested language but present in the default resolves to
the default language's message, not `none`. -/
theorem key_fallback_for_known_language (t : Translator) (language key : String)
    (bl : Bundle)
    (hinv : mapContains t.translations t.default_language = true)
    (hl : mapGet t.translations language = some bl) :
    ∃ bd, mapGet t.translations t.default_language = some bd ∧
      (∀ m, Bundle.get_message bl key = some m →
        t.get_message language key = some (some m, bl)) ∧
      (Bundle.get_message bl key = none → language ≠ t.default_language →
        t.get_message language key = some (Bundle.get_message bd key, bl)) ∧
      (Bundle.get_message bl key = none → language = t.default_language →
        t.get_message language key = some (none, bl)) := by
  obtain ⟨bd, hd⟩ := mapGet_of_contains _ _ hinv
  have he := get_message_eq t language key bl bd hl hd
  refine ⟨bd, hd, ?_, ?_, ?_⟩
  · intro m hm
    rw [he, hm]
    simp
  · intro hnone hne
    rw [he, hnone]
    have hb : (language != t.default_language) = true := bne_iff_ne.2 hne
    simp [hb]
  · intro hnone heq
    rw [he, hnone]
    simp [heq]

/-- Witness for C2: in `sampleTranslator` the language "fr" is present with
an empty store, and key "hello" falls back to the default store's message. -/
theorem key_fallback_for_known_language_witness :
    ∃ bd, mapGet sampleTranslator.translations
        sampleTranslator.default_language = some bd ∧
      (∀ m, Bundle.get_message (Bundle.new_concurrent ["fr"]) "hello" = some m →
        sampleTranslator.get_message "fr" "hello" =
          some (some m, Bundle.new_concurrent ["fr"])) ∧
      (Bundle.get_message (Bundle.new_concurrent ["fr"]) "hello" = none →
        "fr" ≠ sampleTranslator.default_language →
        sampleTranslator.get_message "fr" "hello" =
          some (Bundle.get_message bd "hello", Bundle.new_concurrent ["fr"])) ∧
      (Bundle.get_message (Bundle.new_concurrent ["fr"]) "hello" = none →
        "fr" = sampleTranslator.default_language →
        sampleTranslator.get_message "fr" "hello" =
          some (none, Bundle.new_concurrent ["fr"])) :=
  key_fallback_for_known_language sampleTranslator "fr" "hello"
    (Bundle.new_concurrent ["fr"]) rfl rfl

/-- C6: for a requested language whose identifier is not a key of the map,
`translate_without_arguments` returns exactly the same text as requesting the
default language directly. -/
theorem unknown_language_equals_default (M : FluentModel) (t : Translator)
    (language key : String)
    (hinv : mapContains t.translations t.default_language = true)
    (h : mapGet t.translations language = none) :
    t.translate_without_arguments M language key =
      t.translate_without_arguments M t.default_language key := by
  obtain ⟨bd, hd⟩ := mapGet_of_contains _ _ hinv
  have h1 := get_message_unknown t language key bd h hd
  have h2 : t.get_message t.default_language key =
      some (Bundle.get_message bd key, bd) := by
    rw [get_message_eq t t.default_language key bd bd hd hd]
    simp
  unfold Translator.translate_without_arguments
  rw [h1, h2]

/-- Witness for C6: requesting the unknown language "de" returns the same
text as requesting the default language "en". -/
theorem unknown_language_equals_default_witness :
    sampleTranslator.translate_without_arguments sampleModel "de" "hello" =
      sampleTranslator.translate_without_arguments sampleModel
        sampleTranslator.default_language "hello" :=
  unknown_language_equals_default sampleModel sampleTranslator "de" "hello"
    rfl rfl

theorem twa_eq (M : FluentModel) (t : Translator) (language key : String)
    (msg? : Option FluentMessage) (b : Bundle)
    (hmb : t.get_message language key = some (msg?, b)) :
    t.translate_without_arguments M language key =
      some (resolveText M msg? b) := by
  unfold Translator.translate_without_arguments
  conv_lhs => rw [hmb]
  cases msg? with
  | none => rfl
  | some message =>
    show (match message.value? with
          | none => some TRANSLATION_FAILED
          | some message_value =>
            let fm := M.formatPattern b message_value none
            if fm.2.isEmpty then some fm.1 else some TRANSLATION_FAILED) =
      some (match message.value? with
            | none => TRANSLATION_FAILED
            | some v =>
              if (M.formatPattern b v none).2.isEmpty
              then (M.formatPattern b v none).1 else TRANSLATION_FAILED)
    cases hv : message.value? with
    | none => rfl
    | some v =>
      show (if (M.formatPattern b v none).2.isEmpty then
              some (M.formatPattern b v none).1
            else some TRANSLATION_FAILED) =
        some (if (M.formatPattern b v none).2.isEmpty then
                (M.formatPattern b v none).1
              else TRANSLATION_FAILED)
      by_cases he : (M.formatPattern b v none).2.isEmpty
      · rw [if_pos he, if_pos he]
      · rw [if_neg he, if_neg he]

/-- C3: on a translator satisfying the construction invariant,
`translate_without_arguments` always returns a string (never a panic, never
an error value); the result is the formatted pattern exactly when a message
with a formattable value resolves and formatting yields zero errors, and it
is exactly `TRANSLATION_FAILED` in every other case. -/
theorem translate_without_arguments_spec (M : FluentModel) (t : Translator)
    (language key : String)
    (hinv : mapContains t.translations t.default_language = true) :
    ∃ r, t.translate_without_arguments M language key = some r ∧
      ((∃ msg v b, t.get_message language key = some (some msg, b) ∧
          msg.value? = some v ∧ (M.formatPattern b v none).2 = [] ∧
          r = (M.formatPattern b v none).1) ∨
       (r = TRANSLATION_FAILED ∧
        ¬ ∃ msg v b, t.get_message language key = some (some msg, b) ∧
            msg.value? = some v ∧ (M.formatPattern b v none).2 = [])) := by
  obtain ⟨⟨msg?, b⟩, hmb⟩ := get_message_isSome t language key hinv
  have ht := twa_eq M t language key msg? b hmb
  cases msg? with
  | none =>
    refine ⟨TRANSLATION_FAILED, ht, Or.inr ⟨rfl, ?_⟩⟩
    rintro ⟨msg, v, b2, hb2, -, -⟩
    rw [hmb] at hb2
    simp at hb2
  | some msg =>
    have ht2 : t.translate_without_arguments M language key =
        some (match msg.value? with
              | none => TRANSLATION_FAILED
              | some v =>
                if (M.formatPattern b v none).2.isEmpty
                then (M.formatPattern b v none).1
                else TRANSLATION_FAILED) := ht
    cases hv : msg.value? with
    | none =>
      rw [hv] at ht2
      refine ⟨TRANSLATION_FAILED, ht2, Or.inr ⟨rfl, ?_⟩⟩
      rintro ⟨msg2, v, b2, hb2, hv2, -⟩
      rw [hmb] at hb2
      have h5 : msg = msg2 ∧ b = b2 := by
        simp at hb2
        tauto
      rw [← h5.1, hv] at hv2
      cases hv2
    | some v =>
      rw [hv] at ht2
      have ht3 : t.translate_without_arguments M language key =
          some (if (M.formatPattern b v none).2.isEmpty
                then (M.formatPattern b v none).1
                else TRANSLATION_FAILED) := ht2
      by_cases he : (M.formatPattern b v none).2.isEmpty
      · rw [if_pos he] at ht3
        exact ⟨(M.formatPattern b v none).1, ht3,
          Or.inl ⟨msg, v, b, hmb, hv, List.isEmpty_iff.1 he, rfl⟩⟩
      · rw [if_neg he] at ht3
        refine ⟨TRANSLATION_FAILED, ht3, Or.inr ⟨rfl, ?_⟩⟩
        rintro ⟨msg2, v2, b2, hb2, hv2, he2⟩
        rw [hmb] at hb2
        have h5 : msg = msg2 ∧ b = b2 := by
          simp at hb2
          tauto
        rw [← h5.1, hv] at hv2
        cases hv2
        rw [← h5.2] at he2
        exact he (List.isEmpty_iff.2 he2)

/-- Witness for C3: a successfully formatted message in `sampleTranslator`. -/
theorem translate_without_arguments_spec_witness :
    ∃ r, sampleTranslator.translate_without_arguments sampleModel "en" "hello" =
        some r ∧
      ((∃ msg v b, sampleTranslator.get_message "en" "hello" =
            some (some msg, b) ∧
          msg.value? = some v ∧ (sampleModel.formatPattern b v none).2 = [] ∧
          r = (sampleModel.formatPattern b v none).1) ∨
       (r = TRANSLATION_FAILED ∧
        ¬ ∃ msg v b, sampleTranslator.get_message "en" "hello" =
              some (some msg, b) ∧
            msg.value? = some v ∧
            (sampleModel.formatPattern b v none).2 = [])) :=
  translate_without_arguments_spec sampleModel sampleTranslator "en" "hello" rfl

/-- C9: every translator produced by `new` satisfies the invariant that its
default language is a key of its map (which is never mutated afterwards: the
model is pure and no operation returns a modified translator), so
`get_message`, `translate_without_arguments` and `translate` never hit the
`unwrap` panic: they are total on constructed translators. -/
theorem constructed_translator_is_total (M : FluentModel) (dp : String)
    (root : RootDir) (dl : String) (t : Translator)
    (h : Translator.new M dp root dl = .ok t) :
    mapContains t.translations t.default_language = true ∧
    ∀ language key,
      (t.get_message language key).isSome = true ∧
      (t.translate_without_arguments M language key).isSome = true ∧
      (t.translate language key).isSome = true := by
  have hinv := (new_ok_inv M dp root dl t h).2
  refine ⟨hinv, fun language key => ?_⟩
  obtain ⟨⟨msg?, b⟩, hmb⟩ := get_message_isSome t language key hinv
  refine ⟨by rw [hmb]; rfl, ?_, ?_⟩
  · rw [twa_eq M t language key msg? b hmb]
    rfl
  · unfold Translator.translate
    rw [hmb]
    rfl

/-- Witness for C9: a concretely constructed translator with one "en"
directory; its operations are total at a concrete language and key. -/
theorem constructed_translator_is_total_witness :
    mapContains
        (Translator.mk [("en", Bundle.new_concurrent ["en"])] "en").translations
        (Translator.mk [("en", Bundle.new_concurrent ["en"])] "en").default_language
      = true ∧
    ∀ language key,
      ((Translator.mk [("en", Bundle.new_concurrent ["en"])] "en").get_message
          language key).isSome = true ∧
      ((Translator.mk [("en", Bundle.new_concurrent ["en"])] "en").translate_without_arguments
          sampleModel language key).isSome = true ∧
      ((Translator.mk [("en", Bundle.new_concurrent ["en"])] "en").translate
          language key).isSome = true :=
  constructed_translator_is_total sampleModel "root"
    (plainRoot [PEntry.dir "en" []]) "en"
    (Translator.mk [("en", Bundle.new_concurrent ["en"])] "en") rfl

/-- C8: `build()` is a non-consuming pure read of the builder: a trace of `n`
successive calls (each call returning the text and the builder value, which a
`&self` receiver leaves unchanged) ends with the original builder — key,
bundle, message and argument set intact — and every call returns the same
text. -/
theorem build_is_pure_and_repeatable (M : FluentModel) (b : MessageTranslator)
    (n : Nat) :
    buildTrace M b n = (b, List.replicate n (b.build M)) := by
  induction n with
  | zero => rfl
  | succ k ih => simp [buildTrace, buildCall, ih, List.replicate_succ]

theorem new_ok_listing (M : FluentModel) (dp : String)
    (entries : List (Option DirEntryNode)) (dl : String) :
    Translator.new M dp { listing := .ok entries } dl =
      match processEntries M dp entries [] with
      | .error err => .error err
      | .ok translations =>
        if mapContains translations dl then
          .ok { translations := translations, default_language := dl }
        else .error .NoDefaultLanuage := rfl

/-- C4: construction checks the default language exactly once, after the full
walk: on a readable tree the result is `ok` when the default identifier is a
key of the built map and the "no default language" error otherwise; hence on
every readable tree with no subdirectory named after the default language,
construction fails with exactly that error. -/
theorem default_language_checked_after_walk (M : FluentModel) (dp : String)
    (es : List PEntry) (dl : String) :
    (Translator.new M dp (plainRoot es) dl =
      if mapContains (es.foldl (pStep M) []) dl then
        .ok { translations := es.foldl (pStep M) [], default_language := dl }
      else .error .NoDefaultLanuage) ∧
    ((∀ e ∈ es, PEntry.dirName e ≠ some dl) →
      Translator.new M dp (plainRoot es) dl = .error .NoDefaultLanuage) := by
  have hmain := new_plain M dp es dl
  refine ⟨hmain, fun hnd => ?_⟩
  have hc : mapContains (es.foldl (pStep M) []) dl = false := by
    cases hmc : mapContains (es.foldl (pStep M) []) dl with
    | false => rfl
    | true =>
      rcases (contains_walk M es [] dl).1 hmc with hv | hfalse
      · rcases dirName_of_validDirNames M es dl hv with ⟨e, he, hne⟩
        exact absurd hne (hnd e he)
      · simp [mapContains] at hfalse
  rw [hmain, hc]
  simp

/-- Witness for C4: a tree with only a "fr" directory and default "en" fails
with the "no default language" error. -/
theorem default_language_checked_after_walk_witness :
    Translator.new sampleModel "root" (plainRoot [PEntry.dir "fr" []]) "en" =
      .error .NoDefaultLanuage :=
  (default_language_checked_after_walk sampleModel "root"
    [PEntry.dir "fr" []] "en").2
    (by
      intro e he
      simp at he
      subst he
      decide)

/-- C7: on a readable tree containing a language subdirectory named after the
default language, construction succeeds and the key set of the map is exactly
the set of top-level directory names that parse as valid identifiers
(non-directories and invalid names never appear). -/
theorem construction_keyset (M : FluentModel) (dp : String) (es : List PEntry)
    (dl : String) (h : dl ∈ validDirNames M es) :
    ∃ t, Translator.new M dp (plainRoot es) dl = .ok t ∧
      t.default_language = dl ∧
      ∀ s, (mapContains t.translations s = true ↔ s ∈ validDirNames M es) := by
  have hc : mapContains (es.foldl (pStep M) []) dl = true :=
    (contains_walk M es [] dl).2 (Or.inl h)
  refine ⟨{ translations := es.foldl (pStep M) [], default_language := dl },
    ?_, rfl, ?_⟩
  · rw [new_plain M dp es dl, hc]
    simp
  · intro s
    rw [contains_walk M es [] s]
    constructor
    · rintro (hv | hfalse)
      · exact hv
      · simp [mapContains] at hfalse
    · exact Or.inl

/-- Witness for C7: a tree with a valid "en" directory, a non-directory
entry, and a directory "xx" whose name fails identifier parsing; the map's
keys are exactly the names of valid language directories. -/
theorem construction_keyset_witness :
    ∃ t, Translator.new sampleModel "root"
        (plainRoot [PEntry.dir "en" [], PEntry.nondir "notes",
          PEntry.dir "xx" []]) "en" = .ok t ∧
      t.default_language = "en" ∧
      ∀ s, (mapContains t.translations s = true ↔
        s ∈ validDirNames sampleModel
          [PEntry.dir "en" [], PEntry.nondir "notes", PEntry.dir "xx" []]) :=
  construction_keyset sampleModel "root"
    [PEntry.dir "en" [], PEntry.nondir "notes", PEntry.dir "xx" []] "en"
    (by decide)

/-- C5: construction's fatality is asymmetric.  (1) Failure to list the root
directory aborts `new` with a directory-read error carrying the root path.
(2) Failure to list a language subdirectory's entries aborts `new` with a
directory-read error carrying the sub-path, whatever else the tree holds.
(3) Per-file conditions (unreadable file, unparseable file, rejected
resource) never make the walk fail.  (4) A language directory with one
unparseable file and one valid file still yields a bundle holding exactly the
valid file's messages, and construction succeeds. -/
theorem construction_fatality_asymmetry :
    (∀ (M : FluentModel) (dp detail dl : String),
      Translator.new M dp { listing := .error detail } dl =
        .error (.ReadDirError dp detail)) ∧
    (∀ (M : FluentModel) (dp : String) (pre : List PEntry) (n detail : String)
        (post : List (Option DirEntryNode)) (dl : String),
      M.parseLang n = true →
      Translator.new M dp
          { listing := .ok (pre.map PEntry.toEntry ++
              some { name := n, fileType := .ok true,
                     listing := .error detail } :: post) } dl =
        .error (.ReadDirError (dp ++ "/" ++ n) detail)) ∧
    (∀ (M : FluentModel) (dp : String) (es : List PEntry)
        (acc : List (String × Bundle)),
      ∃ m, processEntries M dp (es.map PEntry.toEntry) acc = .ok m) ∧
    (∀ (M : FluentModel) (dp dl f1 f2 c1 c2 : String) (r : FluentResource),
      M.parseLang dl = true →
      M.parseResource c1 = .error () →
      M.parseResource c2 = .ok r →
      Translator.new M dp
          (plainRoot [PEntry.dir dl
            [some { name := f1, content := .ok c1 },
             some { name := f2, content := .ok c2 }]]) dl =
        .ok { translations :=
                [(dl, (Bundle.add_resource (Bundle.new_concurrent [dl]) r).1)],
              default_language := dl }) := by
  refine ⟨fun M dp detail dl => rfl, ?_, fun M dp es acc => ⟨_, plain_walk M dp es acc⟩, ?_⟩
  · intro M dp pre n detail post dl hn
    have hstep : processEntries M dp
        (pre.map PEntry.toEntry ++
          some { name := n, fileType := .ok true,
                 listing := .error detail } :: post) [] =
        .error (.ReadDirError (dp ++ "/" ++ n) detail) := by
      rw [processEntries_append, plain_walk M dp pre []]
      show processEntries M dp
          (some { name := n, fileType := .ok true,
                  listing := .error detail } :: post)
          (pre.foldl (pStep M) []) = _
      rw [processEntries]
      have hpe : processEntry M dp (pre.foldl (pStep M) [])
          (some { name := n, fileType := .ok true,
                  listing := .error detail }) =
          .error (.ReadDirError (dp ++ "/" ++ n) detail) := by
        unfold processEntry get_directory_data is_directory
        simp [hn]
      rw [hpe]
    rw [new_ok_listing, hstep]
  · intro M dp dl f1 f2 c1 c2 r h1 h2 h3
    rw [new_plain]
    have hb : List.foldl (pStep M) []
        [PEntry.dir dl [some { name := f1, content := .ok c1 },
          some { name := f2, content := .ok c2 }]] =
        [(dl, (Bundle.add_resource (Bundle.new_concurrent [dl]) r).1)] := by
      simp [pStep, h1, loadFiles, get_file_data, h2, h3, mapInsert]
    rw [hb]
    have hc : mapContains
        [(dl, (Bundle.add_resource (Bundle.new_concurrent [dl]) r).1)] dl =
        true := by
      simp [mapContains]
    rw [hc]
    simp

/-- Witness for C5: a directory "en" with the unparseable file "a.ftl" and
the valid file "b.ftl" (under `sampleModel`) still builds a translator whose
"en" bundle holds exactly `sampleResource`'s messages. -/
theorem construction_fatality_asymmetry_witness :
    Translator.new sampleModel "root"
        (plainRoot [PEntry.dir "en"
          [some { name := "a.ftl", content := .ok "BAD" },
           some { name := "b.ftl", content := .ok "good" }]]) "en" =
      .ok { translations :=
              [("en", (Bundle.add_resource (Bundle.new_concurrent ["en"])
                sampleResource).1)],
            default_language := "en" } :=
  construction_fatality_asymmetry.2.2.2 sampleModel "root" "en" "a.ftl" "b.ftl"
    "BAD" "good" sampleResource rfl rfl rfl

/-- C10: the only error values `Translator.new` can return are the
directory-read error and the no-default-language error; the entry-metadata
and resource-add variants of `TranslatorError` are never surfaced, because
those conditions are downgraded to skip-and-warn inside construction. -/
theorem new_error_classification (M : FluentModel) (dp : String)
    (root : RootDir) (dl : String) (e : TranslatorError)
    (h : Translator.new M dp root dl = .error e) :
    (∃ p d, e = TranslatorError.ReadDirError p d) ∨
      e = TranslatorError.NoDefaultLanuage := by
  unfold Translator.new at h
  cases hr : root.listing with
  | error detail =>
    rw [hr] at h
    have h2 : Except.error (TranslatorError.ReadDirError dp detail) =
        (Except.error e : Except TranslatorError Translator) := h
    injection h2 with h3
    exact Or.inl ⟨dp, detail, h3.symm⟩
  | ok entries =>
    rw [hr] at h
    have h2 : (match processEntries M dp entries [] with
        | Except.error err => Except.error err
        | Except.ok translations =>
          if mapContains translations dl = true then
            Except.ok (Translator.mk translations dl)
          else Except.error TranslatorError.NoDefaultLanuage) =
        Except.error e := h
    cases hpe : processEntries M dp entries [] with
    | error err =>
      rw [hpe] at h2
      injection h2 with h3
      rcases processEntries_error_shape M dp entries [] err hpe with ⟨p, d, hpd⟩
      exact Or.inl ⟨p, d, by rw [← h3, hpd]⟩
    | ok translations =>
      rw [hpe] at h2
      have h3 : (if mapContains translations dl = true then
            Except.ok (Translator.mk translations dl)
          else Except.error TranslatorError.NoDefaultLanuage) =
          Except.error e := h2
      by_cases hc : mapContains translations dl = true
      · rw [if_pos hc] at h3
        simp at h3
      · rw [if_neg hc] at h3
        injection h3 with h4
        exact Or.inr h4.symm

/-- Witness for C10: a failing root listing produces a directory-read error,
which is one of the two permitted error shapes. -/
theorem new_error_classification_witness :
    (∃ p d, TranslatorError.ReadDirError "root" "boom" =
        TranslatorError.ReadDirError p d) ∨
      TranslatorError.ReadDirError "root" "boom" =
        TranslatorError.NoDefaultLanuage :=
  new_error_classification sampleModel "root" { listing := .error "boom" }
    "en" (TranslatorError.ReadDirError "root" "boom") rfl
